import Mathlib

/-!
Verification development for the class-conditional conformal prediction
experiment harness (`utils/experiment_utils.py`).

The experiment orchestration (`run_one_experiment`,
`average_results_across_seeds`, `load_dataset`, `initialize_metrics_dict`)
is embedded directly from the source.  The calibration primitives it calls
(`utils/conformal_utils.py` and `utils/clustering_utils.py`: score
transforms, data splitters, the three quantile calibrators) are not part of
the sources available here; they are modelled from the specification, as
marked in their doc comments.

Numeric conventions of the embedding:
* Python floats are embedded as exact rationals (`ℚ`); decimal literals of
  the source become the corresponding rationals (`0.01` becomes `1/100`).
* `numpy` pseudo-randomness is embedded as an explicit deterministic
  generator state (`ℕ`) threaded through the definitions; `np.random.seed`
  becomes re-initialisation of that state from the seed.
* A possibly-infinite calibration threshold (`np.inf` in the source) is the
  value `QVal.inf`.
-/

/-- A row-major matrix of rationals (rows = examples, columns = classes). -/
abbrev Mat := List (List ℚ)

/-- Integer class labels, aligned by row index with a score matrix. -/
abbrev Labels := List ℕ

/-- One step of a linear-congruential generator; returns a value in `[0,1)`
together with the next state.  Models one `numpy` uniform draw. -/
def rngNext (g : ℕ) : ℚ × ℕ :=
  let g2 := (1103515245 * g + 12345) % 2147483648
  ((g2 : ℚ) / 2147483648, g2)

/-- Generator state obtained from `np.random.seed s`. -/
def rngOf (s : ℕ) : ℕ := ((s + 1) * 2654435761) % 2147483648

/-- The generator state after `k` further LCG steps. -/
def rngIter : ℕ → ℕ → ℕ
  | 0, g => g
  | k + 1, g => rngIter k (rngNext g).2

/-- Insert into a list sorted by the boolean relation `le` (stable). -/
def insertBy {α : Type} (le : α → α → Bool) (x : α) : List α → List α
  | [] => [x]
  | y :: ys => if le x y then x :: y :: ys else y :: insertBy le x ys

/-- Stable insertion sort by the boolean relation `le`. -/
def sortBy {α : Type} (le : α → α → Bool) : List α → List α
  | [] => []
  | x :: xs => insertBy le x (sortBy le xs)

/-- Order on `(class index, probability)` pairs: larger probability first,
ties broken by smaller class index (deterministic tie order). -/
def probDescLe (a b : ℕ × ℚ) : Bool :=
  decide (b.2 < a.2) || (decide (a.2 = b.2) && decide (a.1 ≤ b.1))

/-- Classes of one softmax row sorted by descending probability, each paired
with its original class index. -/
def sortDescWithIdx (row : List ℚ) : List (ℕ × ℚ) :=
  sortBy probDescLe row.enum

/-- Position (0-based) of class `j` in the descending sort of `row`. -/
def sorted_pos (row : List ℚ) (j : ℕ) : Option ℕ :=
  (sortDescWithIdx row).findIdx? (fun p => p.1 == j)

/-- Modelled from the spec (§4.1): the (R)APS nonconformity score of class
`j` for one softmax row.  The score is the cumulative probability mass of
the classes sorted by descending probability up to and including `j`, plus
a regularization penalty `lmbda` for each sorted rank beyond `kreg`
(`lmbda = 0, kreg = 0` yields plain APS), minus, when `randomize` is set,
a uniform random fraction `u` of the class's own probability mass. -/
def raps_score_at (lmbda : ℚ) (kreg : ℕ) (randomize : Bool)
    (row : List ℚ) (u : ℚ) (j : ℕ) : ℚ :=
  match sorted_pos row j with
  | none => 0
  | some k =>
    (((sortDescWithIdx row).take (k + 1)).map (fun p => p.2)).sum
      + (if kreg < k + 1 then lmbda * (((k + 1 - kreg : ℕ)) : ℚ) else 0)
      - (if randomize then u * ((row.get? j).getD 0) else 0)

/-- (R)APS scores of one softmax row, in original class order. -/
def raps_row (lmbda : ℚ) (kreg : ℕ) (randomize : Bool)
    (row : List ℚ) (u : ℚ) : List ℚ :=
  (List.range row.length).map (raps_score_at lmbda kreg randomize row u)

/-- Row-by-row (R)APS scoring of a whole softmax matrix; one uniform draw
is consumed per row when `randomize` is set. -/
def scores_all_go (lmbda : ℚ) (kreg : ℕ) (randomize : Bool) :
    Mat → ℕ → Mat × ℕ
  | [], g => ([], g)
  | row :: rest, g =>
    let p := if randomize then rngNext g else (0, g)
    let r := scores_all_go lmbda kreg randomize rest p.2
    (raps_row lmbda kreg randomize row p.1 :: r.1, r.2)

/-- Modelled from the spec (§4.1): `get_APS_scores_all` from
`utils/conformal_utils.py` (not under src/).  Adaptive prediction-set
scores for every example and class. -/
def get_APS_scores_all (softmax : Mat) (randomize : Bool) (g : ℕ) : Mat × ℕ :=
  scores_all_go 0 0 randomize softmax g

/-- Modelled from the spec (§4.1): `get_RAPS_scores_all` from
`utils/conformal_utils.py` (not under src/).  Regularized adaptive
prediction-set scores with penalty `lmbda` beyond rank `kreg`. -/
def get_RAPS_scores_all (softmax : Mat) (lmbda : ℚ) (kreg : ℕ)
    (randomize : Bool) (g : ℕ) : Mat × ℕ :=
  scores_all_go lmbda kreg randomize softmax g

/-- The score-function dispatch of `run_one_experiment`
(`experiment_utils.py` lines 104–115): inverse-softmax, APS with
randomization, or RAPS with the ImageNet-default hyperparameters
`lmbda = .01`, `kreg = 5`; any other name raises
`'Undefined score function'`. -/
def score_branch (softmax : Mat) (score_function : String) (g : ℕ) :
    Except String (Mat × ℕ) :=
  if score_function = "softmax" then
    .ok (softmax.map (fun row => row.map (fun p => 1 - p)), g)
  else if score_function = "APS" then
    .ok (get_APS_scores_all softmax true g)
  else if score_function = "RAPS" then
    .ok (get_RAPS_scores_all softmax (1/100) 5 true g)
  else
    .error "Undefined score function"

/-- Select the entries of `l` at the given indices (out-of-range indices
contribute nothing). -/
def select {α : Type} (l : List α) (idx : List ℕ) : List α :=
  idx.filterMap (fun i => l.get? i)

/-- A deterministic pseudo-random permutation of `range n` derived from
`seed`: indices sorted by an LCG key stream (ties by index). -/
def perm_of_seed (n : ℕ) (seed : ℕ) : List ℕ :=
  (sortBy (fun a b => decide (a.1 < b.1) || (decide (a.1 = b.1) && decide (a.2 ≤ b.2)))
    ((List.range n).map (fun k => ((rngIter (k + 1) (rngOf seed)), k)))).map
    (fun p => p.2)

/-- Number of classes of a score matrix (its column count). -/
def num_classes_of (m : Mat) : ℕ := ((m.head?).map List.length).getD 0

/-- The calibration/validation split handed to the calibrators. -/
structure CalData where
  totalcal_scores_all : Mat
  totalcal_labels : Labels
  val_scores_all : Mat
  val_labels : Labels
  deriving DecidableEq, Repr

/-- Modelled from the spec (§4.2): `random_split` from
`utils/conformal_utils.py` (not under src/).  Draws
`n_totalcal × num_classes` examples uniformly at random (reproducibly from
`seed`) as the calibration set; the remainder is validation.  Rows are
partitioned exactly and row–label alignment is preserved. -/
def random_split (scores : Mat) (labels : Labels) (n_totalcal : ℕ)
    (seed : ℕ) : CalData :=
  let n := scores.length
  let perm := perm_of_seed n seed
  let k := min (n_totalcal * num_classes_of scores) n
  let calIdx := perm.take k
  let valIdx := perm.drop k
  ⟨select scores calIdx, select labels calIdx,
   select scores valIdx, select labels valIdx⟩

/-- Greedy pass used by the balanced splitter: walk the index permutation,
sending an index to the calibration side while its class has fewer than
`n_per_class` calibration examples, and to the validation side otherwise. -/
def balanced_pick (labels : Labels) (n_per_class : ℕ) :
    List ℕ → (List (ℕ × ℕ)) → List ℕ × List ℕ
  | [], _ => ([], [])
  | i :: rest, counts =>
    let c := (labels.get? i).getD 0
    let ct := ((counts.find? (fun p => p.1 == c)).map (fun p => p.2)).getD 0
    if ct < n_per_class then
      let r := balanced_pick labels n_per_class rest
        ((c, ct + 1) :: counts.filter (fun p => !(p.1 == c)))
      (i :: r.1, r.2)
    else
      let r := balanced_pick labels n_per_class rest counts
      (r.1, i :: r.2)

/-- Modelled from the spec (§4.2): `split_X_and_y` from
`utils/conformal_utils.py` (not under src/), in its `split='balanced'`
mode.  Draws `n_totalcal` examples per class (or as many as are available)
for calibration, reproducibly from `seed`; the remainder is validation. -/
def split_X_and_y (scores : Mat) (labels : Labels) (n_totalcal : ℕ)
    (_num_classes : ℕ) (seed : ℕ) : CalData :=
  let perm := perm_of_seed scores.length seed
  let picked := balanced_pick labels n_totalcal perm []
  ⟨select scores picked.1, select labels picked.1,
   select scores picked.2, select labels picked.2⟩

/-- The calibration-sampling dispatch of `run_one_experiment`
(`experiment_utils.py` lines 128–139): `'random'` or `'balanced'`; any
other name raises `'Invalid calibration_sampling option'`. -/
def split_data (calibration_sampling : String) (scores_all : Mat)
    (labels : Labels) (n_totalcal : ℕ) (seed : ℕ) :
    Except String CalData :=
  if calibration_sampling = "random" then
    .ok (random_split scores_all labels n_totalcal seed)
  else if calibration_sampling = "balanced" then
    .ok (split_X_and_y scores_all labels n_totalcal
      (num_classes_of scores_all) seed)
  else
    .error "Invalid calibration_sampling option"

/-- A calibration threshold that may be infinite (`np.inf`). -/
inductive QVal
  | inf
  | q (x : ℚ)
  deriving DecidableEq, Repr

/-- `s ≤ v` for a possibly-infinite threshold. -/
def qval_le (s : ℚ) (v : QVal) : Bool :=
  match v with
  | .inf => true
  | .q x => decide (s ≤ x)

/-- `s < v` for a possibly-infinite threshold. -/
def qval_lt (s : ℚ) (v : QVal) : Bool :=
  match v with
  | .inf => true
  | .q x => decide (s < x)

/-- `s = v` for a possibly-infinite threshold. -/
def qval_eqb (s : ℚ) (v : QVal) : Bool :=
  match v with
  | .inf => false
  | .q x => decide (s = x)

/-- Threshold structure of a calibrated method: a single scalar quantile
(standard) or a class-indexed vector of quantiles (classwise and
clustered). -/
inductive QhatStruct
  | scalar (q : QVal)
  | perClass (qs : List QVal)
  deriving DecidableEq, Repr

/-- Resolve the threshold of class `j`. -/
def resolve_qhat (qs : QhatStruct) (j : ℕ) : QVal :=
  match qs with
  | .scalar q => q
  | .perClass l => (l.get? j).getD .inf

/-- The coverage metrics persisted by a calibrator (the keys of the
`coverage_metrics` dict read back by `average_results_across_seeds`). -/
structure MetricsRecord where
  mean_class_cov_gap : ℚ
  max_gap : ℚ
  marginal_cov : ℚ
  very_undercovered : ℚ
  deriving DecidableEq, Repr

/-- The set-size metrics persisted by a calibrator (the `set_size_metrics`
dict; its `'mean'` entry). -/
structure SetSizeRecord where
  mean : ℚ
  deriving DecidableEq, Repr

/-- One value of the results mapping: the 4-tuple
`(qhat(s), preds, coverage_metrics, set_size_metrics)`
(`experiment_utils.py` line 125). -/
structure ResultTuple where
  qhat : QhatStruct
  preds : Option (List (List ℕ))
  metrics : MetricsRecord
  set_size : SetSizeRecord
  deriving DecidableEq, Repr

/-- The in-memory and persisted results mapping, keyed by method name. -/
abbrev ResultsMap := List (String × ResultTuple)

/-- Mean of a list of rationals (`np.mean`; the empty mean is 0 under the
total division of `ℚ`). -/
def np_mean (l : List ℚ) : ℚ := l.sum / (l.length : ℚ)

/-- Population variance of a list of rationals — the square of `np.std`
(numpy's default `ddof = 0`).  Standard deviations and standard errors are
represented throughout by their squares, to remain inside `ℚ`. -/
def np_var (l : List ℚ) : ℚ :=
  np_mean (l.map (fun x => (x - np_mean l) * (x - np_mean l)))

/-- The nonconformity score of each example's true class. -/
def true_class_scores (scores : Mat) (labels : Labels) : List ℚ :=
  (scores.zip labels).map (fun p => (p.1.get? p.2).getD 0)

/-- Modelled from the spec (§4.4): the finite-sample-corrected conformal
quantile — the `⌈(n+1)(1−α)⌉`-th smallest of the `n` calibration scores,
or `inf` when that index falls outside `1..n` (too few examples for a
valid quantile). -/
def conformal_qhat (scores : List ℚ) (alpha : ℚ) : QVal :=
  let n := scores.length
  let idx := (Int.ceil ((n + 1 : ℚ) * (1 - alpha))).toNat
  if 1 ≤ idx ∧ idx ≤ n then
    match (sortBy (fun a b => decide (a ≤ b)) scores).get? (idx - 1) with
    | some x => .q x
    | none => .inf
  else .inf

/-- Modelled from the spec (§4.4, exact-coverage variants): the probability
weight used for randomized inclusion at the threshold boundary, precomputed
during calibration from the fractional quantile index. -/
def exact_boundary_prob (n : ℕ) (alpha : ℚ) : ℚ :=
  let t := (n + 1 : ℚ) * (1 - alpha)
  (Int.ceil t : ℚ) - t

/-- Modelled from the spec (§4.5): the prediction set of one validation
example — the classes whose score does not exceed their resolved
threshold; in exact-coverage mode a class exactly at the threshold is
included according to the example's uniform draw `u` against the
precomputed boundary probability `bp`. -/
def pred_set_row (row : List ℚ) (qs : QhatStruct) (exact : Bool) (bp : ℚ)
    (u : ℚ) : List ℕ :=
  row.enum.filterMap (fun p =>
    let v := resolve_qhat qs p.1
    let keep :=
      if exact then qval_lt p.2 v || (qval_eqb p.2 v && decide (bp ≤ u))
      else qval_le p.2 v
    if keep then some p.1 else none)

/-- Modelled from the spec (§4.5): the Prediction Set Builder applied to
every validation example; one uniform draw is consumed per example in
exact-coverage mode. -/
def build_pred_sets (exact : Bool) (bp : ℚ) (qs : QhatStruct) :
    Mat → ℕ → List (List ℕ) × ℕ
  | [], g => ([], g)
  | row :: rest, g =>
    let p := if exact then rngNext g else (0, g)
    let r := build_pred_sets exact bp qs rest p.2
    (pred_set_row row qs exact bp p.1 :: r.1, r.2)

/-- Per-class validation coverage: for each class with at least one
validation example, the fraction of its examples whose true label is in the
prediction set (classes with no validation example contribute nothing). -/
def class_coverages (preds : List (List ℕ)) (labels : Labels) (ncls : ℕ) :
    List (Option ℚ) :=
  (List.range ncls).map (fun c =>
    let ex := (preds.zip labels).filter (fun p => p.2 == c)
    if ex.length = 0 then none
    else some ((ex.countP (fun p => p.2 ∈ p.1) : ℚ) / (ex.length : ℚ)))

/-- The fixed undercoverage margin of the `'very_undercovered'` metric. -/
def very_undercovered_margin : ℚ := 1/10

/-- Modelled from the spec (§4.6): the Evaluation Engine — marginal
coverage, mean and maximum per-class coverage gap from `1−α`, and the count
of very undercovered classes. -/
def compute_metrics (preds : List (List ℕ)) (labels : Labels) (alpha : ℚ)
    (ncls : ℕ) : MetricsRecord :=
  let pairs := preds.zip labels
  let marginal := (pairs.countP (fun p => p.2 ∈ p.1) : ℚ) / (pairs.length : ℚ)
  let covs := (class_coverages preds labels ncls).filterMap id
  let gaps := covs.map (fun c => |c - (1 - alpha)|)
  { mean_class_cov_gap := np_mean gaps
    max_gap := gaps.foldr max 0
    marginal_cov := marginal
    very_undercovered :=
      (covs.countP (fun c => decide (c < 1 - alpha - very_undercovered_margin)) : ℚ) }

/-- Mean prediction-set size (the `'mean'` entry of `set_size_metrics`). -/
def set_size_of (preds : List (List ℕ)) : SetSizeRecord :=
  ⟨np_mean (preds.map (fun s => (s.length : ℚ)))⟩

/-- Assemble the persisted 4-tuple from a threshold structure by building
prediction sets on the validation data and evaluating them. -/
def finish_calibration (qs : QhatStruct) (val_scores : Mat)
    (val_labels : Labels) (alpha : ℚ) (exact : Bool) (bp : ℚ) (g : ℕ) :
    ResultTuple × ℕ :=
  let pr := build_pred_sets exact bp qs val_scores g
  (⟨qs, some pr.1, compute_metrics pr.1 val_labels alpha (num_classes_of val_scores),
    set_size_of pr.1⟩, pr.2)

/-- Modelled from the spec (§4.4): `standard_conformal` from
`utils/conformal_utils.py` (not under src/).  One global conformal quantile
of all calibration scores; with `exact_coverage`, the same quantile plus
randomized inclusion at the boundary. -/
def standard_conformal (cal_scores : Mat) (cal_labels : Labels)
    (val_scores : Mat) (val_labels : Labels) (alpha : ℚ)
    (exact_coverage : Bool) (g : ℕ) : ResultTuple × ℕ :=
  let cal := true_class_scores cal_scores cal_labels
  finish_calibration (.scalar (conformal_qhat cal alpha)) val_scores
    val_labels alpha exact_coverage (exact_boundary_prob cal.length alpha) g

/-- The default threshold for classes with too few calibration examples:
`np.inf` or the string sentinel `'standard'` of the source. -/
inductive DefaultQhat
  | inf
  | standard
  deriving DecidableEq, Repr

/-- Per-class conformal quantiles with a default for under-populated
classes and optional shrinkage toward the global quantile. -/
def classwise_qhats (cal_scores : Mat) (cal_labels : Labels) (alpha : ℚ)
    (ncls : ℕ) (default_qhat : DefaultQhat) (regularize : Bool) :
    List QVal :=
  let q_std := conformal_qhat (true_class_scores cal_scores cal_labels) alpha
  let dflt := match default_qhat with | .inf => QVal.inf | .standard => q_std
  (List.range ncls).map (fun c =>
    let s_c := ((cal_scores.zip cal_labels).filter (fun p => p.2 == c)).map
      (fun p => (p.1.get? p.2).getD 0)
    let q_c := conformal_qhat s_c alpha
    let q_c := if q_c = QVal.inf then dflt else q_c
    if regularize then
      match q_c, q_std with
      | .q a, .q b => .q ((a + b) / 2)
      | _, _ => q_c
    else q_c)

/-- Modelled from the spec (§4.4): `classwise_conformal` from
`utils/conformal_utils.py` (not under src/).  Per-class conformal
quantiles with `default_qhat` fallback, optional empirical-Bayes shrinkage
toward the global quantile (modelled with weight 1/2), and optional
exact-coverage boundary randomization. -/
def classwise_conformal (cal_scores : Mat) (cal_labels : Labels)
    (val_scores : Mat) (val_labels : Labels) (alpha : ℚ)
    (num_classes : ℕ) (default_qhat : DefaultQhat) (regularize : Bool)
    (exact_coverage : Bool) (g : ℕ) : ResultTuple × ℕ :=
  let qs := classwise_qhats cal_scores cal_labels alpha num_classes
    default_qhat regularize
  finish_calibration (.perClass qs) val_scores val_labels alpha
    exact_coverage (exact_boundary_prob cal_scores.length alpha) g

/-- The `frac_clustering` option: a fraction or `'auto'`. -/
inductive FracParam
  | auto
  | val (x : ℚ)
  deriving DecidableEq, Repr

/-- The `num_clusters` option: a cluster count or `'auto'`. -/
inductive NumParam
  | auto
  | val (k : ℕ)
  deriving DecidableEq, Repr

/-- The `cluster_args` dict of `run_one_experiment`. -/
structure ClusterArgs where
  frac_clustering : FracParam
  num_clusters : NumParam
  deriving DecidableEq, Repr

/-- The default `cluster_args` of the source:
`{'frac_clustering': 'auto', 'num_clusters': 'auto'}`. -/
def default_cluster_args : ClusterArgs := ⟨.auto, .auto⟩

/-- Minimum per-class count below which a class is never clustered
(a tuning constant of the clustering heuristic, spec §4.3/§9). -/
def cluster_min_count : ℕ := 2

/-- Occurrences of class `c` in a label vector. -/
def class_count (labels : Labels) (c : ℕ) : ℕ :=
  labels.countP (fun y => y == c)

/-- Modelled from the spec (§4.3): `clustered_conformal` from
`utils/conformal_utils.py` and the clustering engine of
`utils/clustering_utils.py` (not under src/).  Classes with at least
`cluster_min_count` examples in the clustering sub-split are grouped into
clusters by similarity of a per-class score statistic (modelled as the mean
true-class score, ordered and cut into `num_clusters` contiguous groups);
per-cluster conformal quantiles are fitted on the pooled quantile-fitting
scores, unclustered classes falling back to the standard quantile.  The
`split` disciplines follow §4.3: `'proportional'` uses disjoint fixed
fractions, `'doubledip'` reuses all calibration data for both phases,
`'random'` draws the clustering subset pseudo-randomly from the generator
state. -/
def clustered_conformal (cal_scores : Mat) (cal_labels : Labels)
    (alpha : ℚ) (val_scores : Mat) (val_labels : Labels)
    (frac_clustering : FracParam) (num_clusters : NumParam)
    (split : String) (exact_coverage : Bool) (g : ℕ) : ResultTuple × ℕ :=
  let n := cal_scores.length
  let ncls := num_classes_of cal_scores
  let frac := match frac_clustering with | .auto => (1 : ℚ)/2 | .val x => x
  let kcut := (Int.floor (frac * (n : ℚ))).toNat
  let pick : List ℕ × List ℕ × ℕ :=
    if split = "proportional" then
      ((List.range n).take kcut, (List.range n).drop kcut, g)
    else if split = "random" then
      let perm := perm_of_seed n g
      (perm.take kcut, perm.drop kcut, (rngNext g).2)
    else
      (List.range n, List.range n, g)
  let cl_scores := select cal_scores pick.1
  let cl_labels := select cal_labels pick.1
  let fit_scores := select cal_scores pick.2.1
  let fit_labels := select cal_labels pick.2.1
  let g1 := pick.2.2
  let eligible := (List.range ncls).filter
    (fun c => cluster_min_count ≤ class_count cl_labels c)
  let k := match num_clusters with
    | .auto => max 1 (eligible.length / 2)
    | .val k0 => max 1 k0
  let stat : ℕ → ℚ := fun c =>
    np_mean (((cl_scores.zip cl_labels).filter (fun p => p.2 == c)).map
      (fun p => (p.1.get? p.2).getD 0))
  let sortedElig := sortBy
    (fun a b => decide (stat a < stat b) ||
      (decide (stat a = stat b) && decide (a ≤ b))) eligible
  let m := sortedElig.length
  let assignment : ℕ → Option ℕ := fun c =>
    (sortedElig.findIdx? (fun e => e == c)).map (fun i => i * k / m)
  let pooled : ℕ → List ℚ := fun cl =>
    ((fit_scores.zip fit_labels).filter
      (fun p => (assignment p.2).any (fun x => x == cl))).map
      (fun p => (p.1.get? p.2).getD 0)
  let cluster_qhats := (List.range k).map (fun cl => conformal_qhat (pooled cl) alpha)
  let q_std := conformal_qhat (true_class_scores fit_scores fit_labels) alpha
  let qs := (List.range ncls).map (fun c =>
    match assignment c with
    | some cl => (cluster_qhats.get? cl).getD QVal.inf
    | none => q_std)
  finish_calibration (.perClass qs) val_scores val_labels alpha
    exact_coverage (exact_boundary_prob fit_scores.length alpha) g1

/-- The method dispatch of `run_one_experiment` (`experiment_utils.py`
lines 145–222): the ten recognized method names and the calibrator calls
they map to; any other name raises `'Invalid method selected'`. -/
def dispatch_method (cd : CalData) (alpha : ℚ) (ca : ClusterArgs)
    (method : String) (g : ℕ) : Except String (ResultTuple × ℕ) :=
  if method = "standard" then
    .ok (standard_conformal cd.totalcal_scores_all cd.totalcal_labels
      cd.val_scores_all cd.val_labels alpha false g)
  else if method = "classwise" then
    .ok (classwise_conformal cd.totalcal_scores_all cd.totalcal_labels
      cd.val_scores_all cd.val_labels alpha
      (num_classes_of cd.totalcal_scores_all) .inf false false g)
  else if method = "classwise_default_standard" then
    .ok (classwise_conformal cd.totalcal_scores_all cd.totalcal_labels
      cd.val_scores_all cd.val_labels alpha
      (num_classes_of cd.totalcal_scores_all) .standard false false g)
  else if method = "cluster_proportional" then
    .ok (clustered_conformal cd.totalcal_scores_all cd.totalcal_labels
      alpha cd.val_scores_all cd.val_labels .auto .auto "proportional" false g)
  else if method = "cluster_doubledip" then
    .ok (clustered_conformal cd.totalcal_scores_all cd.totalcal_labels
      alpha cd.val_scores_all cd.val_labels .auto .auto "doubledip" false g)
  else if method = "cluster_random" then
    .ok (clustered_conformal cd.totalcal_scores_all cd.totalcal_labels
      alpha cd.val_scores_all cd.val_labels ca.frac_clustering
      ca.num_clusters "random" false g)
  else if method = "regularized_classwise" then
    .ok (classwise_conformal cd.totalcal_scores_all cd.totalcal_labels
      cd.val_scores_all cd.val_labels alpha
      (num_classes_of cd.totalcal_scores_all) .standard true false g)
  else if method = "exact_coverage_standard" then
    .ok (standard_conformal cd.totalcal_scores_all cd.totalcal_labels
      cd.val_scores_all cd.val_labels alpha true g)
  else if method = "exact_coverage_classwise" then
    .ok (classwise_conformal cd.totalcal_scores_all cd.totalcal_labels
      cd.val_scores_all cd.val_labels alpha
      (num_classes_of cd.totalcal_scores_all) .inf false true g)
  else if method = "exact_coverage_cluster" then
    .ok (clustered_conformal cd.totalcal_scores_all cd.totalcal_labels
      alpha cd.val_scores_all cd.val_labels ca.frac_clustering
      ca.num_clusters "random" true g)
  else
    .error "Invalid method selected"

/-- Lookup in a string-keyed association list (Python dict read). -/
def alookup {α : Type} : List (String × α) → String → Option α
  | [], _ => none
  | (k2, v) :: rest, k => if k2 = k then some v else alookup rest k

/-- Write to a string-keyed association list (Python dict assignment):
overwrite the existing entry in place, or append a new one. -/
def rmInsert : ResultsMap → String → ResultTuple → ResultsMap
  | [], k, v => [(k, v)]
  | (k2, v2) :: rest, k, v =>
    if k2 = k then (k2, v) :: rest else (k2, v2) :: rmInsert rest k v

/-- Null out the prediction-set component of one results tuple. -/
def stripTuple (r : ResultTuple) : ResultTuple :=
  ⟨r.qhat, none, r.metrics, r.set_size⟩

/-- The pass of `run_one_experiment` lines 224–227: with
`save_preds = False`, replace the second component of every entry of the
results mapping by `None`. -/
def strip_preds (mp : ResultsMap) : ResultsMap :=
  mp.map (fun p => (p.1, stripTuple p.2))

/-- The method loop of `run_one_experiment` (lines 145–222): run every
requested method on the split, writing each result into the results
mapping; an unrecognized method raises before anything is persisted. -/
def run_methods (cd : CalData) (alpha : ℚ) (ca : ClusterArgs) :
    List String → ResultsMap → ℕ → Except String (ResultsMap × ℕ)
  | [], acc, g => .ok (acc, g)
  | m :: ms, acc, g =>
    match dispatch_method cd alpha ca m g with
    | .error e => .error e
    | .ok r => run_methods cd alpha ca ms (rmInsert acc m r.1) r.2

/-- One seed's in-memory results processing (lines 119–127 and 145–227):
start from the previously persisted mapping when the results file exists
(else from the empty mapping), run the requested methods into it, and
finally strip prediction sets when `save_preds` is false. -/
def process_seed (prior : Option ResultsMap) (cd : CalData) (alpha : ℚ)
    (ca : ClusterArgs) (methods : List String) (save_preds : Bool)
    (g : ℕ) : Except String (ResultsMap × ℕ) :=
  match run_methods cd alpha ca methods (prior.getD []) g with
  | .error e => .error e
  | .ok r => .ok (if save_preds then r.1 else strip_preds r.1, r.2)

/-- The full argument record of `run_one_experiment`. -/
structure ExpArgs where
  dataset : String
  save_folder : String
  alpha : ℚ
  n_totalcal : ℕ
  score_function_list : List String
  methods : List String
  seeds : List ℕ
  cluster_args : ClusterArgs
  save_preds : Bool
  calibration_sampling : String
  save_labels : Bool
  deriving DecidableEq, Repr

/-- The per-score-function results directory
(`{save_folder}/{dataset}/{calibration_sampling}_calset/n_totalcal={n}/score={sf}`). -/
def curr_folder_path (args : ExpArgs) (sf : String) : String :=
  args.save_folder ++ "/" ++ args.dataset ++ "/" ++
    args.calibration_sampling ++ "_calset/n_totalcal=" ++
    toString args.n_totalcal ++ "/score=" ++ sf

/-- The results-file path `{curr_folder}/seed={seed}_allresults.pkl`. -/
def save_to_path (args : ExpArgs) (sf : String) (seed : ℕ) : String :=
  curr_folder_path args sf ++ "/seed=" ++ toString seed ++ "_allresults.pkl"

/-- The label-file path `{curr_folder}/seed={seed}_labels.npy`. -/
def labels_path (args : ExpArgs) (sf : String) (seed : ℕ) : String :=
  curr_folder_path args sf ++ "/seed=" ++ toString seed ++ "_labels.npy"

/-- A file written to disk during a run. -/
inductive WriteEvent
  | pkl (path : String) (contents : ResultsMap)
  | npy (path : String) (labels : Labels)
  deriving DecidableEq, Repr

/-- The mutable state of a run: the pickle files on disk (most recent write
first), the chronological write trace, and the global generator state. -/
structure RunState where
  fs : List (String × ResultsMap)
  trace : List WriteEvent
  g : ℕ
  deriving DecidableEq, Repr

/-- Disk lookup of a results file (most recent write wins). -/
def fsLookup : List (String × ResultsMap) → String → Option ResultsMap
  | [], _ => none
  | (q, m) :: rest, p => if q = p then some m else fsLookup rest p

/-- One iteration of the seed loop of `run_one_experiment` (lines
117–238): load the existing results file if present, split the data,
inspect the calibration class counts (raising like `min()` on an empty
`Counter` when the calibration set is empty), run the methods, optionally
strip predictions, optionally persist validation labels, and persist the
results mapping.  On an exception nothing is written. -/
def seed_step (args : ExpArgs) (scores_all : Mat) (labels : Labels)
    (sf : String) (seed : ℕ) (st : RunState) : RunState × Option String :=
  let save_to := save_to_path args sf seed
  let prior := fsLookup st.fs save_to
  match split_data args.calibration_sampling scores_all labels
      args.n_totalcal seed with
  | .error e => (st, some e)
  | .ok cd =>
    if cd.totalcal_labels = [] then
      (st, some "ValueError: min() arg is an empty sequence")
    else
      match process_seed prior cd args.alpha args.cluster_args args.methods
          args.save_preds st.g with
      | .error e => (st, some e)
      | .ok r =>
        let levs := if args.save_labels then
          [WriteEvent.npy (labels_path args sf seed) cd.val_labels] else []
        ({ fs := (save_to, r.1) :: st.fs,
           trace := st.trace ++ levs ++ [WriteEvent.pkl save_to r.1],
           g := r.2 }, none)

/-- The seed loop over all requested seeds, stopping at the first
exception. -/
def seeds_loop (args : ExpArgs) (scores_all : Mat) (labels : Labels)
    (sf : String) : List ℕ → RunState → RunState × Option String
  | [], st => (st, none)
  | s :: rest, st =>
    match seed_step args scores_all labels sf s st with
    | (st2, some e) => (st2, some e)
    | (st2, none) => seeds_loop args scores_all labels sf rest st2

/-- One iteration of the score-function loop (lines 97–238): compute the
conformal scores for this scoring rule, then process every seed. -/
def score_step (args : ExpArgs) (softmax : Mat) (labels : Labels)
    (sf : String) (st : RunState) : RunState × Option String :=
  match score_branch softmax sf st.g with
  | .error e => (st, some e)
  | .ok r => seeds_loop args r.1 labels sf args.seeds { st with g := r.2 }

/-- The score-function loop over all requested scoring rules, stopping at
the first exception. -/
def scores_loop (args : ExpArgs) (softmax : Mat) (labels : Labels) :
    List String → RunState → RunState × Option String
  | [], st => (st, none)
  | sf :: rest, st =>
    match score_step args softmax labels sf st with
    | (st2, some e) => (st2, some e)
    | (st2, none) => scores_loop args softmax labels rest st2

/-- `load_dataset` (`experiment_utils.py` lines 54–72): the bare membership
assertion over the four known dataset names, then the dataset's softmax
scores and labels (disk contents abstracted as the `data` map). -/
def load_dataset (data : String → Mat × Labels) (dataset : String) :
    Except String (Mat × Labels) :=
  if dataset ∈ ["imagenet", "cifar-100", "places365", "inaturalist"] then
    .ok (data dataset)
  else
    .error "AssertionError"

/-- `run_one_experiment` (`experiment_utils.py` lines 75–238).  `data`
abstracts the dataset files on disk, `fs0` the pre-existing results files,
and `_g0` the ambient generator state at entry — immediately overwritten by
`np.random.seed(0)` (line 93).  Returns the final run state (disk, write
trace, generator) and the exception message if one was raised. -/
def run_one_experiment (args : ExpArgs) (data : String → Mat × Labels)
    (fs0 : List (String × ResultsMap)) (_g0 : ℕ) :
    RunState × Option String :=
  let st0 : RunState := { fs := fs0, trace := [], g := rngOf 0 }
  match load_dataset data args.dataset with
  | .error e => (st0, some e)
  | .ok d => scores_loop args d.1 d.2 args.score_function_list st0

/-- The five per-method metric sample lists collected by the aggregator
(one sample per results file that contains the method). -/
structure MethodMetrics where
  class_cov_gap : List ℚ
  max_class_cov_gap : List ℚ
  avg_set_size : List ℚ
  marginal_cov : List ℚ
  very_undercovered : List ℚ
  deriving DecidableEq, Repr

/-- The empty sample lists. -/
def empty_metrics : MethodMetrics := ⟨[], [], [], [], []⟩

/-- The metrics dict of the aggregator, as a total map from method name to
its sample lists (the source's `initialize_metrics_dict` creates the empty
lists for each requested method; only requested methods are ever read). -/
abbrev MDict := String → MethodMetrics

/-- The metrics dict with empty sample lists for every method. -/
def init_metrics_dict : MDict := fun _ => empty_metrics

/-- Point update of the metrics dict. -/
def mdUpdate (d : MDict) (m : String) (v : MethodMetrics) : MDict :=
  fun x => if x = m then v else d x

/-- Append one results file's five metric values for one method
(`average_results_across_seeds` lines 279–283). -/
def append_metrics (mm : MethodMetrics) (r : ResultTuple) : MethodMetrics :=
  ⟨mm.class_cov_gap ++ [r.metrics.mean_class_cov_gap],
   mm.max_class_cov_gap ++ [r.metrics.max_gap],
   mm.avg_set_size ++ [r.set_size.mean],
   mm.marginal_cov ++ [r.metrics.marginal_cov],
   mm.very_undercovered ++ [r.metrics.very_undercovered]⟩

/-- The inner method loop of the aggregator over one results file (lines
277–285): append the method's metrics, or report
`Missing {method} in {pth}` when the file lacks the method. -/
def file_fold (pth : String) (R : ResultsMap) :
    List String → MDict → List String → MDict × List String
  | [], d, rs => (d, rs)
  | m :: ms, d, rs =>
    match alookup R m with
    | some r => file_fold pth R ms (mdUpdate d m (append_metrics (d m) r)) rs
    | none => file_fold pth R ms d (rs ++ ["Missing " ++ m ++ " in " ++ pth])

/-- The outer file loop of the aggregator (lines 273–285). -/
def files_fold (methods : List String) :
    List (String × ResultsMap) → MDict → List String → MDict × List String
  | [], d, rs => (d, rs)
  | f :: rest, d, rs =>
    let r1 := file_fold f.1 f.2 methods d rs
    files_fold methods rest r1.1 r1.2

/-- Mean and squared standard error of one metric over the seeds, as
reported (lines 308–321): the mean of the samples and
`np.std(samples)/np.sqrt(n)` — the latter represented by its square
`np_var samples / n` to remain in `ℚ`. -/
structure AggStats where
  mean : ℚ
  se_sq : ℚ
  deriving DecidableEq, Repr

/-- `(np.mean xs, (np.std xs / np.sqrt n)^2)`. -/
def agg_stats (n : ℕ) (l : List ℚ) : AggStats :=
  ⟨np_mean l, np_var l / (n : ℚ)⟩

/-- The five per-method aggregates of the report. -/
structure MethodAgg where
  class_cov_gap : AggStats
  max_class_cov_gap : AggStats
  avg_set_size : AggStats
  marginal_cov : AggStats
  very_undercovered : AggStats
  deriving DecidableEq, Repr

/-- Aggregate one method's sample lists with standard-error divisor `n`. -/
def method_agg (n : ℕ) (mm : MethodMetrics) : MethodAgg :=
  ⟨agg_stats n mm.class_cov_gap, agg_stats n mm.max_class_cov_gap,
   agg_stats n mm.avg_set_size, agg_stats n mm.marginal_cov,
   agg_stats n mm.very_undercovered⟩

/-- Lexicographic order on character lists (by code point). -/
def charsLt : List Char → List Char → Bool
  | [], [] => false
  | [], _ :: _ => true
  | _ :: _, [] => false
  | c :: cs, d :: ds =>
    if c.toNat < d.toNat then true
    else if d.toNat < c.toNat then false
    else charsLt cs ds

/-- Lexicographic order on strings: the order Python's `sorted` applies to
file names. -/
def strLt (a b : String) : Bool := charsLt a.data b.data

/-- The discovered results files in sorted filename order
(`sorted(glob.glob(...))`, line 263). -/
def sort_files (files : List (String × ResultsMap)) :
    List (String × ResultsMap) :=
  sortBy (fun a b => !strLt b.1 a.1) files

/-- The files actually read (lines 267–269): all of them, or only the first
`max_seeds` in sorted order when more were discovered (`max_seeds = none`
is the source's `np.inf` default). -/
def used_files (files : List (String × ResultsMap)) (max_seeds : Option ℕ) :
    List (String × ResultsMap) :=
  let sorted := sort_files files
  match max_seeds with
  | none => sorted
  | some k => if sorted.length > k then sorted.take k else sorted

/-- The aggregator's output: the seed count it reports and divides by, the
per-file missing-method reports, and one row of aggregates per requested
method. -/
structure AggResult where
  num_seeds : ℕ
  reports : List String
  rows : List (String × MethodAgg)
  deriving Repr

/-- `average_results_across_seeds` (`experiment_utils.py` lines 254–338),
up to the construction of the data frame: discover and sort the results
files, truncate to `max_seeds`, collect each requested method's metric
samples (skipping and reporting files that lack the method), and aggregate
each method's samples into means and standard errors whose divisor is
`num_seeds` — the number of files discovered, fixed before truncation
(lines 264 and 305). -/
def average_results_across_seeds (files : List (String × ResultsMap))
    (methods : List String) (max_seeds : Option ℕ) : AggResult :=
  let num_seeds := (sort_files files).length
  let used := used_files files max_seeds
  let r := files_fold methods used init_metrics_dict []
  { num_seeds := num_seeds
    reports := r.2
    rows := methods.map (fun m => (m, method_agg num_seeds (r.1 m))) }

/-- The per-method samples a list of files contributes: one entry per file
that contains the method, nothing (not zero) for files that lack it. -/
def method_samples (files : List (String × ResultsMap)) (m : String) :
    MethodMetrics :=
  ⟨files.filterMap (fun f => (alookup f.2 m).map (fun r => r.metrics.mean_class_cov_gap)),
   files.filterMap (fun f => (alookup f.2 m).map (fun r => r.metrics.max_gap)),
   files.filterMap (fun f => (alookup f.2 m).map (fun r => r.set_size.mean)),
   files.filterMap (fun f => (alookup f.2 m).map (fun r => r.metrics.marginal_cov)),
   files.filterMap (fun f => (alookup f.2 m).map (fun r => r.metrics.very_undercovered))⟩

/-- Append the fields of two sample collections. -/
def mm_append (a b : MethodMetrics) : MethodMetrics :=
  ⟨a.class_cov_gap ++ b.class_cov_gap,
   a.max_class_cov_gap ++ b.max_class_cov_gap,
   a.avg_set_size ++ b.avg_set_size,
   a.marginal_cov ++ b.marginal_cov,
   a.very_undercovered ++ b.very_undercovered⟩

/-- Whether an exception-carrying computation succeeded. -/
def exOk {α : Type} : Except String α → Bool
  | .ok _ => true
  | .error _ => false

/-- The value of a successful exception-carrying computation (with a
default for the error case). -/
def exGet {α : Type} (d : α) : Except String α → α
  | .ok a => a
  | .error _ => d

/-- Reference fold describing how one method's sample lists grow over a
list of results files: append the file's metrics when the method is
present, leave the lists untouched when it is absent. -/
def mm_fold (mm : MethodMetrics) : List (String × ResultsMap) → String → MethodMetrics
  | [], _ => mm
  | f :: rest, m =>
    mm_fold (match alookup f.2 m with
             | some r => append_metrics mm r
             | none => mm) rest m

/-- A small concrete softmax matrix (5 examples, 2 classes). -/
def demo_softmax : Mat :=
  [[3/5, 2/5], [3/10, 7/10], [4/5, 1/5], [1/10, 9/10], [11/20, 9/20]]

/-- Labels for `demo_softmax`. -/
def demo_labels : Labels := [0, 1, 0, 1, 0]

/-- A dataset environment serving the demo data for every dataset name. -/
def demo_data : String → Mat × Labels := fun _ => (demo_softmax, demo_labels)

/-- The inverse-softmax scores of the demo data. -/
def demo_scores : Mat := demo_softmax.map (fun row => row.map (fun p => 1 - p))

/-- A concrete, fully valid experiment configuration. -/
def demo_args : ExpArgs :=
  { dataset := "imagenet", save_folder := "results", alpha := 1/10,
    n_totalcal := 1, score_function_list := ["softmax"],
    methods := ["standard"], seeds := [0],
    cluster_args := default_cluster_args, save_preds := false,
    calibration_sampling := "random", save_labels := false }

/-- The demo configuration with an unknown second scoring rule. -/
def demo_args_bad_score : ExpArgs :=
  { demo_args with score_function_list := ["softmax", "bogus"] }

/-- The demo configuration with an unknown dataset name. -/
def demo_args_bad_dataset : ExpArgs :=
  { demo_args with dataset := "mnist" }

/-- A concrete persisted results tuple (with retained prediction sets). -/
def demo_tuple : ResultTuple :=
  { qhat := .scalar (.q (1/2)), preds := some [[0], [1]],
    metrics := { mean_class_cov_gap := 1/20, max_gap := 1/10,
                 marginal_cov := 9/10, very_undercovered := 0 },
    set_size := { mean := 3/2 } }

/-- A prior results file containing a method that is not re-run. -/
def demo_prior : ResultsMap := [("classwise", demo_tuple)]

/-- An empty starting state. -/
def demo_state : RunState := { fs := [], trace := [], g := 0 }

/-- A starting state whose disk already holds `demo_prior` at the path the
demo run will write to. -/
def demo_state_with_file : RunState :=
  { fs := [(save_to_path demo_args "softmax" 0, demo_prior)],
    trace := [], g := rngOf 0 }

/-- A small concrete calibration/validation split. -/
def demo_cd : CalData :=
  ⟨[[2/5, 3/5], [7/10, 3/10]], [0, 1], [[1/5, 4/5]], [1]⟩

/-- Two persisted results files, the second lacking `standard`. -/
def demo_files : List (String × ResultsMap) :=
  [("a.pkl", [("standard", demo_tuple)]), ("b.pkl", [])]

/-- Three persisted results files, each containing `standard`. -/
def demo_files3 : List (String × ResultsMap) :=
  [("a.pkl", [("standard", demo_tuple)]),
   ("b.pkl", [("standard", demo_tuple)]),
   ("c.pkl", [("standard", demo_tuple)])]

/-- Writing a key makes it readable. -/
theorem alookup_rmInsert_self (mp : ResultsMap) (k : String) (v : ResultTuple) :
    alookup (rmInsert mp k v) k = some v := by
  induction mp with
  | nil => simp [rmInsert, alookup]
  | cons h t ih =>
    by_cases hk : h.1 = k
    · simp [rmInsert, hk, alookup]
    · simp [rmInsert, hk, alookup, ih]

/-- Writing one key leaves every other key unchanged. -/
theorem alookup_rmInsert_ne (mp : ResultsMap) (k k2 : String) (v : ResultTuple)
    (h : k2 ≠ k) : alookup (rmInsert mp k v) k2 = alookup mp k2 := by
  induction mp with
  | nil => simp [rmInsert, alookup, Ne.symm h]
  | cons hd t ih =>
    by_cases hk : hd.1 = k
    · simp [rmInsert, hk, alookup, Ne.symm h]
    · simp [rmInsert, hk, alookup, ih]

/-- Writing never removes a present key. -/
theorem alookup_rmInsert_present (mp : ResultsMap) (k k2 : String)
    (v w : ResultTuple) (h : alookup mp k2 = some w) :
    ∃ w2, alookup (rmInsert mp k v) k2 = some w2 := by
  by_cases hk : k2 = k
  · exact ⟨v, hk ▸ alookup_rmInsert_self mp k v⟩
  · exact ⟨w, (alookup_rmInsert_ne mp k k2 v hk).trans h⟩

/-- Stripping prediction sets acts pointwise on the mapping. -/
theorem alookup_strip_preds (mp : ResultsMap) (m : String) :
    alookup (strip_preds mp) m = (alookup mp m).map stripTuple := by
  induction mp with
  | nil => simp [strip_preds, alookup]
  | cons h t ih =>
    by_cases hk : h.1 = m
    · simp [strip_preds, alookup, hk]
    · simpa [strip_preds, alookup, hk] using ih

/-- A successful method loop leaves methods outside the list untouched. -/
theorem run_methods_not_mem (cd : CalData) (alpha : ℚ) (ca : ClusterArgs) :
    ∀ (ms : List String) (acc : ResultsMap) (g : ℕ) (out : ResultsMap × ℕ),
    run_methods cd alpha ca ms acc g = .ok out →
    ∀ m, m ∉ ms → alookup out.1 m = alookup acc m := by
  intro ms
  induction ms with
  | nil =>
    intro acc g out h m _
    simp [run_methods] at h
    simp [← h]
  | cons m0 t ih =>
    intro acc g out h m hm
    rw [run_methods] at h
    cases hd : dispatch_method cd alpha ca m0 g with
    | error e => rw [hd] at h; exact absurd h (by simp)
    | ok r =>
      rw [hd] at h
      have h1 := ih (rmInsert acc m0 r.1) r.2 out h m (by
        intro hc; exact hm (List.mem_cons_of_mem _ hc))
      rw [h1]
      exact alookup_rmInsert_ne acc m0 m r.1 (by
        intro hc; exact hm (hc ▸ List.mem_cons_self m0 t))

/-- A successful method loop preserves the presence of every key. -/
theorem run_methods_present (cd : CalData) (alpha : ℚ) (ca : ClusterArgs) :
    ∀ (ms : List String) (acc : ResultsMap) (g : ℕ) (out : ResultsMap × ℕ),
    run_methods cd alpha ca ms acc g = .ok out →
    ∀ m w, alookup acc m = some w → ∃ w2, alookup out.1 m = some w2 := by
  intro ms
  induction ms with
  | nil =>
    intro acc g out h m w hw
    simp [run_methods] at h
    exact ⟨w, by simp [← h, hw]⟩
  | cons m0 t ih =>
    intro acc g out h m w hw
    rw [run_methods] at h
    cases hd : dispatch_method cd alpha ca m0 g with
    | error e => rw [hd] at h; exact absurd h (by simp)
    | ok r =>
      rw [hd] at h
      obtain ⟨w1, hw1⟩ := alookup_rmInsert_present acc m0 m r.1 w hw
      exact ih (rmInsert acc m0 r.1) r.2 out h m w1 hw1

/-- A successful method loop stores, for every requested method, the exact
tuple produced by its calibrator dispatch at some generator state. -/
theorem run_methods_mem (cd : CalData) (alpha : ℚ) (ca : ClusterArgs) :
    ∀ (ms : List String) (acc : ResultsMap) (g : ℕ) (out : ResultsMap × ℕ),
    run_methods cd alpha ca ms acc g = .ok out →
    ∀ m, m ∈ ms → ∃ g0 rt g1,
      dispatch_method cd alpha ca m g0 = .ok (rt, g1) ∧
      alookup out.1 m = some rt := by
  intro ms
  induction ms with
  | nil => intro acc g out _ m hm; exact absurd hm (by simp)
  | cons m0 t ih =>
    intro acc g out h m hm
    rw [run_methods] at h
    cases hd : dispatch_method cd alpha ca m0 g with
    | error e => rw [hd] at h; exact absurd h (by simp)
    | ok r =>
      rw [hd] at h
      by_cases hmt : m ∈ t
      · exact ih (rmInsert acc m0 r.1) r.2 out h m hmt
      · have hm0 : m = m0 := by
          cases List.mem_cons.mp hm with
          | inl h1 => exact h1
          | inr h1 => exact absurd h1 hmt
        subst hm0
        refine ⟨g, r.1, r.2, by rw [hd], ?_⟩
        rw [run_methods_not_mem cd alpha ca t _ r.2 out h m hmt]
        exact alookup_rmInsert_self acc m r.1

/-- A successful seed processing is a successful method loop started from
the prior mapping, followed by the optional prediction-set strip. -/
theorem process_seed_ok (prior : Option ResultsMap) (cd : CalData)
    (alpha : ℚ) (ca : ClusterArgs) (methods : List String)
    (save_preds : Bool) (g : ℕ) (out : ResultsMap × ℕ)
    (h : process_seed prior cd alpha ca methods save_preds g = .ok out) :
    ∃ mp0, run_methods cd alpha ca methods (prior.getD []) g = .ok (mp0, out.2) ∧
      out.1 = (if save_preds then mp0 else strip_preds mp0) := by
  rw [process_seed] at h
  split at h
  next e heq => exact absurd h (by simp)
  next r heq =>
    injection h with h2
    refine ⟨r.1, ?_, ?_⟩
    · rw [heq, ← h2]
    · rw [← h2]

/-- Anatomy of a successful seed iteration: the split succeeded, the method
processing succeeded on the prior file contents, and the final state gained
exactly the label write (if requested) and the results-file write. -/
theorem seed_step_ok_spec (args : ExpArgs) (sm : Mat) (lab : Labels)
    (sf : String) (seed : ℕ) (st : RunState)
    (hok : (seed_step args sm lab sf seed st).2 = none) :
    ∃ cd r,
      split_data args.calibration_sampling sm lab args.n_totalcal seed = .ok cd ∧
      process_seed (fsLookup st.fs (save_to_path args sf seed)) cd args.alpha
        args.cluster_args args.methods args.save_preds st.g = .ok r ∧
      seed_step args sm lab sf seed st
        = ({ fs := (save_to_path args sf seed, r.1) :: st.fs,
             trace := st.trace ++ (if args.save_labels then
                 [WriteEvent.npy (labels_path args sf seed) cd.val_labels] else [])
               ++ [WriteEvent.pkl (save_to_path args sf seed) r.1],
             g := r.2 }, none) := by
  rw [seed_step] at hok
  split at hok
  next e heq => simp at hok
  next cd heq =>
    by_cases h2 : cd.totalcal_labels = []
    · rw [if_pos h2] at hok; simp at hok
    · rw [if_neg h2] at hok
      split at hok
      next e heq3 => simp at hok
      next r heq3 =>
        exact ⟨cd, r, heq, heq3, by simp [seed_step, heq, h2, heq3]⟩

/-- A failing seed iteration writes nothing: the state is unchanged. -/
theorem seed_step_error_spec (args : ExpArgs) (sm : Mat) (lab : Labels)
    (sf : String) (seed : ℕ) (st st2 : RunState) (e : String)
    (h : seed_step args sm lab sf seed st = (st2, some e)) :
    st2 = st := by
  rw [seed_step] at h
  split at h
  next e2 heq => simp at h; exact h.1.symm
  next cd heq =>
    by_cases h2 : cd.totalcal_labels = []
    · rw [if_pos h2] at h; simp at h; exact h.1.symm
    · rw [if_neg h2] at h
      split at h
      next e2 heq3 => simp at h; exact h.1.symm
      next r heq3 => simp at h

/-- C1: when the results file for a (score function, seed) pair already
exists, `run_one_experiment`'s seed iteration loads it as the starting
mapping: every method entry of the prior file is still present in the
rewritten file, an entry not re-run keeps its threshold structure, metrics
and set-size summary exactly (its prediction-set component governed only by
`save_preds`), and the rewritten mapping is never empty when the prior one
was not. -/
theorem run_prior_results_preserved (args : ExpArgs) (sm : Mat)
    (lab : Labels) (sf : String) (seed : ℕ) (st : RunState)
    (M0 : ResultsMap)
    (hprior : fsLookup st.fs (save_to_path args sf seed) = some M0)
    (hok : (seed_step args sm lab sf seed st).2 = none) :
    ∃ M1,
      fsLookup (seed_step args sm lab sf seed st).1.fs
          (save_to_path args sf seed) = some M1 ∧
      WriteEvent.pkl (save_to_path args sf seed) M1
          ∈ (seed_step args sm lab sf seed st).1.trace ∧
      (∀ m v, alookup M0 m = some v → ∃ w, alookup M1 m = some w) ∧
      (∀ m v, alookup M0 m = some v → m ∉ args.methods →
        alookup M1 m = some (if args.save_preds then v else stripTuple v)) ∧
      (M0 ≠ [] → M1 ≠ []) := by
  obtain ⟨cd, r, hsplit, hproc, heq⟩ := seed_step_ok_spec args sm lab sf seed st hok
  obtain ⟨mp0, hrm, hstrip⟩ := process_seed_ok _ cd args.alpha
    args.cluster_args args.methods args.save_preds st.g r hproc
  rw [hprior] at hrm
  have hpresent : ∀ m v, alookup M0 m = some v → ∃ w, alookup r.1 m = some w := by
    intro m v hv
    obtain ⟨w, hw⟩ := run_methods_present cd args.alpha args.cluster_args
      args.methods M0 st.g (mp0, r.2) hrm m v hv
    rw [hstrip]
    by_cases hsp : args.save_preds = true
    · rw [if_pos hsp]; exact ⟨w, hw⟩
    · rw [if_neg hsp]
      exact ⟨stripTuple w, by rw [alookup_strip_preds, hw]; rfl⟩
  refine ⟨r.1, ?_, ?_, hpresent, ?_, ?_⟩
  · rw [heq]; simp [fsLookup]
  · rw [heq]; simp
  · intro m v hv hnm
    have h1 : alookup mp0 m = alookup M0 m :=
      run_methods_not_mem cd args.alpha args.cluster_args
        args.methods M0 st.g (mp0, r.2) hrm m hnm
    cases hb : args.save_preds with
    | false => simp [hstrip, hb, alookup_strip_preds, h1, hv]
    | true => simp [hstrip, hb, h1, hv]
  · intro hne hc
    cases hM : M0 with
    | nil => exact hne hM
    | cons h0 t0 =>
      obtain ⟨w, hw⟩ := hpresent h0.1 h0.2 (by rw [hM]; simp [alookup])
      rw [hc] at hw
      exact absurd hw (by simp [alookup])

/-- C9: when a prior results file exists and `run_one_experiment` is re-run
with `save_preds = false`, the prediction-set component of every entry of
the rewritten file — including entries loaded from the prior file and not
re-run — is null, while every prior entry remains present. -/
theorem rerun_nulls_all_pred_sets (args : ExpArgs) (sm : Mat)
    (lab : Labels) (sf : String) (seed : ℕ) (st : RunState)
    (M0 : ResultsMap)
    (hprior : fsLookup st.fs (save_to_path args sf seed) = some M0)
    (hsp : args.save_preds = false)
    (hok : (seed_step args sm lab sf seed st).2 = none) :
    ∃ M1,
      fsLookup (seed_step args sm lab sf seed st).1.fs
          (save_to_path args sf seed) = some M1 ∧
      (∀ m w, alookup M1 m = some w → w.preds = none) ∧
      (∀ m v, alookup M0 m = some v → ∃ w, alookup M1 m = some w) := by
  obtain ⟨cd, r, hsplit, hproc, heq⟩ := seed_step_ok_spec args sm lab sf seed st hok
  obtain ⟨mp0, hrm, hstrip⟩ := process_seed_ok _ cd args.alpha
    args.cluster_args args.methods args.save_preds st.g r hproc
  rw [hprior] at hrm
  rw [hsp, if_neg (by simp)] at hstrip
  refine ⟨r.1, ?_, ?_, ?_⟩
  · rw [heq]; simp [fsLookup]
  · intro m w hw
    rw [hstrip, alookup_strip_preds] at hw
    cases hl : alookup mp0 m with
    | none => rw [hl] at hw; exact absurd hw (by simp)
    | some w0 =>
      rw [hl] at hw
      have : stripTuple w0 = w := by simpa using hw
      rw [← this]; rfl
  · intro m v hv
    obtain ⟨w, hw⟩ := run_methods_present cd args.alpha args.cluster_args
      args.methods M0 st.g (mp0, r.2) hrm m v hv
    exact ⟨stripTuple w, by rw [hstrip, alookup_strip_preds, hw]; rfl⟩

/-- C7: with `save_preds = false`, the persisted value of every re-run
method is the calibrator's 4-tuple with only its second (prediction sets)
component replaced by null — threshold structure, metrics record and
set-size summary are exactly those the calibrator dispatch produced. -/
theorem save_preds_false_keeps_calibrator_components
    (prior : Option ResultsMap) (cd : CalData) (alpha : ℚ)
    (ca : ClusterArgs) (methods : List String) (g : ℕ) (m : String)
    (hm : m ∈ methods)
    (hok : exOk (process_seed prior cd alpha ca methods false g) = true) :
    ∃ g0 rt g1,
      dispatch_method cd alpha ca m g0 = .ok (rt, g1) ∧
      alookup (exGet ([], 0) (process_seed prior cd alpha ca methods false g)).1 m
        = some { qhat := rt.qhat, preds := none, metrics := rt.metrics,
                 set_size := rt.set_size } := by
  cases hp : process_seed prior cd alpha ca methods false g with
  | error e => rw [hp] at hok; exact absurd hok (by simp [exOk])
  | ok out =>
    obtain ⟨mp0, hrm, hstrip⟩ := process_seed_ok prior cd alpha ca methods
      false g out hp
    obtain ⟨g0, rt, g1, hd, hl⟩ := run_methods_mem cd alpha ca methods
      (prior.getD []) g (mp0, out.2) hrm m hm
    refine ⟨g0, rt, g1, hd, ?_⟩
    show alookup out.1 m = _
    simp only [Bool.false_eq_true, if_false] at hstrip
    have hl2 : alookup mp0 m = some rt := hl
    rw [hstrip, alookup_strip_preds, hl2]
    rfl

/-- C2: an unknown scoring-rule name, calibration-sampling name, or method
name makes `run_one_experiment`'s corresponding dispatch raise with its
descriptive message — never a silent fallback to a default behaviour. -/
theorem unknown_names_raise (sf cs m : String) (sm : Mat) (lab : Labels)
    (n seed g g2 : ℕ) (cd : CalData) (alpha : ℚ) (ca : ClusterArgs)
    (h1 : sf ∉ ["softmax", "APS", "RAPS"])
    (h2 : cs ∉ ["random", "balanced"])
    (h3 : m ∉ ["standard", "classwise", "classwise_default_standard",
      "cluster_proportional", "cluster_doubledip", "cluster_random",
      "regularized_classwise", "exact_coverage_standard",
      "exact_coverage_classwise", "exact_coverage_cluster"]) :
    score_branch sm sf g = .error "Undefined score function" ∧
    split_data cs sm lab n seed = .error "Invalid calibration_sampling option" ∧
    dispatch_method cd alpha ca m g2 = .error "Invalid method selected" := by
  simp only [List.mem_cons, List.not_mem_nil, or_false, not_or] at h1 h2 h3
  refine ⟨?_, ?_, ?_⟩
  · simp [score_branch, h1.1, h1.2.1, h1.2.2]
  · simp [split_data, h2.1, h2.2]
  · simp [dispatch_method, h3.1, h3.2.1, h3.2.2.1, h3.2.2.2.1,
      h3.2.2.2.2.1, h3.2.2.2.2.2.1, h3.2.2.2.2.2.2.1,
      h3.2.2.2.2.2.2.2.1, h3.2.2.2.2.2.2.2.2.1, h3.2.2.2.2.2.2.2.2.2]

/-- C5: the `'RAPS'` branch of `run_one_experiment` applies the RAPS score
transform with exactly the ImageNet-tuned defaults `λ = 0.01` and
`k_reg = 5`; at those parameters every score equals the corresponding APS
score plus the penalty `0.01 · (rank − 5)⁺` of the class's sorted rank. -/
theorem raps_uses_imagenet_defaults (sm : Mat) (g : ℕ) :
    score_branch sm "RAPS" g
      = .ok (get_RAPS_scores_all sm (1/100) 5 true g) ∧
    ∀ (row : List ℚ) (u : ℚ) (j : ℕ),
      raps_score_at (1/100) 5 true row u j
        = raps_score_at 0 0 true row u j
          + (match sorted_pos row j with
             | none => 0
             | some k => if 5 < k + 1 then (1/100) * (((k + 1 - 5 : ℕ)) : ℚ) else 0) := by
  refine ⟨rfl, ?_⟩
  intro row u j
  rw [raps_score_at, raps_score_at]
  cases h : sorted_pos row j with
  | none => simp
  | some k => simp; ring

/-- C6: the `'softmax'` branch of `run_one_experiment` produces exactly the
entrywise complement `1 − p` of the softmax matrix, with the same shape
(same row count, same length of every row), and leaves the generator state
untouched (no randomization). -/
theorem softmax_scores_one_minus_prob (sm : Mat) (g : ℕ) :
    score_branch sm "softmax" g
      = .ok (sm.map (fun row => row.map (fun p => 1 - p)), g) ∧
    (sm.map (fun row => row.map (fun p => 1 - p))).length = sm.length ∧
    (∀ i : ℕ, ((sm.map (fun row => row.map (fun p => 1 - p))).get? i).map
        List.length = (sm.get? i).map List.length) ∧
    (∀ i j : ℕ,
      ((sm.map (fun row => row.map (fun p => 1 - p))).get? i).bind
          (fun r => r.get? j)
        = ((sm.get? i).bind (fun r => r.get? j)).map (fun p => 1 - p)) := by
  refine ⟨rfl, by simp, ?_, ?_⟩
  · intro i
    rw [List.get?_map]
    cases sm.get? i <;> simp
  · intro i j
    rw [List.get?_map]
    cases sm.get? i with
    | none => simp
    | some row => simp [List.get?_map]

/-- C8: `run_one_experiment` is bit-reproducible — its entire outcome
(writes, disk state, final generator) is independent of the ambient
generator state at entry, because the run re-seeds the global generator
with the fixed seed 0 at entry (line 93) and every split re-derives its
randomness from the per-iteration seed value. -/
theorem run_reproducible (args : ExpArgs) (data : String → Mat × Labels)
    (fs0 : List (String × ResultsMap)) (g1 g2 : ℕ) :
    run_one_experiment args data fs0 g1 = run_one_experiment args data fs0 g2 :=
  rfl

/-- C3 (amended): configuration errors abort the failing iteration before
it writes anything — an unknown dataset name stops the whole run (through
the bare assertion of `load_dataset`) with nothing written at all, a
failing seed iteration leaves disk and write trace unchanged, and an
unknown scoring rule stops its score-function iteration with the state
unchanged.  (Results persisted by earlier completed iterations of the same
call are not removed; see the counterexample.) -/
theorem config_errors_fail_fast (args : ExpArgs)
    (data : String → Mat × Labels) (fs0 : List (String × ResultsMap))
    (g0 : ℕ) (sm : Mat) (lab : Labels) (sf : String) (seed : ℕ)
    (st : RunState)
    (hd : args.dataset ∉ ["imagenet", "cifar-100", "places365", "inaturalist"]) :
    run_one_experiment args data fs0 g0
      = ({ fs := fs0, trace := [], g := rngOf 0 }, some "AssertionError") ∧
    (∀ st2 e, seed_step args sm lab sf seed st = (st2, some e) →
      st2.fs = st.fs ∧ st2.trace = st.trace) ∧
    (∀ e, score_branch sm sf st.g = .error e →
      score_step args sm lab sf st = (st, some e)) := by
  refine ⟨?_, ?_, ?_⟩
  · rw [run_one_experiment, load_dataset, if_neg hd]
  · intro st2 e h
    rw [seed_step_error_spec args sm lab sf seed st st2 e h]
    exact ⟨rfl, rfl⟩
  · intro e h
    rw [score_step, h]

/-- C3 is false as stated: a run whose score-function list holds a valid
rule before an unknown one raises the descriptive configuration error, yet
the results file written while processing the earlier valid rule remains on
disk — partial results of the failed run were written. -/
theorem config_error_after_write_cex :
    (run_one_experiment demo_args_bad_score demo_data [] 7).2
        = some "Undefined score function" ∧
    (run_one_experiment demo_args_bad_score demo_data [] 7).1.trace ≠ [] := by
  constructor
  · decide
  · decide

/-- Insertion grows the length by one. -/
theorem insertBy_length {α : Type} (le : α → α → Bool) (x : α)
    (l : List α) : (insertBy le x l).length = l.length + 1 := by
  induction l with
  | nil => rfl
  | cons y ys ih =>
    rw [insertBy]
    by_cases h : le x y = true
    · simp [h]
    · simp [h, ih]

/-- Sorting preserves the length. -/
theorem sortBy_length {α : Type} (le : α → α → Bool) (l : List α) :
    (sortBy le l).length = l.length := by
  induction l with
  | nil => rfl
  | cons y ys ih => rw [sortBy, insertBy_length, ih]; rfl

/-- `filterMap` never lengthens a list. -/
theorem length_filterMap_le2 {α β : Type} (F : α → Option β)
    (l : List α) : (l.filterMap F).length ≤ l.length := by
  induction l with
  | nil => exact Nat.le_refl 0
  | cons y t ih =>
    rw [List.filterMap_cons]
    cases hFy : F y with
    | none => exact Nat.le_succ_of_le ih
    | some b => simpa using Nat.succ_le_succ ih

/-- `filterMap` is strictly shorter when some member is dropped. -/
theorem length_filterMap_lt {α β : Type} (F : α → Option β) :
    ∀ (l : List α) (x : α), x ∈ l → F x = none →
    (l.filterMap F).length < l.length := by
  intro l
  induction l with
  | nil => intro x hx _; exact absurd hx (by simp)
  | cons y t ih =>
    intro x hx hFx
    cases List.mem_cons.mp hx with
    | inl h1 =>
      subst h1
      simp only [List.filterMap_cons, hFx, List.length_cons]
      exact Nat.lt_succ_of_le (length_filterMap_le2 F t)
    | inr h1 =>
      rw [List.filterMap_cons]
      cases hFy : F y with
      | none => exact Nat.lt_succ_of_lt (ih x h1 hFx)
      | some b =>
        simp only [List.length_cons]
        exact Nat.succ_lt_succ (ih x h1 hFx)

/-- Reports already collected survive one file's method loop. -/
theorem file_fold_reports_mono (pth : String) (R : ResultsMap) :
    ∀ (ms : List String) (d : MDict) (rs : List String) (x : String),
    x ∈ rs → x ∈ (file_fold pth R ms d rs).2 := by
  intro ms
  induction ms with
  | nil => intro d rs x hx; exact hx
  | cons m t ih =>
    intro d rs x hx
    rw [file_fold]
    split
    next r heq => exact ih _ _ x hx
    next heq => exact ih _ _ x (List.mem_append_left _ hx)

/-- A requested method missing from a file is reported, naming the method
and the file. -/
theorem file_fold_reports_missing (pth : String) (R : ResultsMap) :
    ∀ (ms : List String) (d : MDict) (rs : List String) (m : String),
    m ∈ ms → alookup R m = none →
    ("Missing " ++ m ++ " in " ++ pth) ∈ (file_fold pth R ms d rs).2 := by
  intro ms
  induction ms with
  | nil => intro d rs m hm _; exact absurd hm (by simp)
  | cons m0 t ih =>
    intro d rs m hm hmiss
    rw [file_fold]
    split
    next r heq =>
      have hmt : m ∈ t := by
        cases List.mem_cons.mp hm with
        | inl h1 =>
          rw [h1] at hmiss
          rw [hmiss] at heq
          exact absurd heq (by simp)
        | inr h1 => exact h1
      exact ih _ _ m hmt hmiss
    next heq =>
      by_cases hm0 : m = m0
      · subst hm0
        exact file_fold_reports_mono pth R t _ _ _
          (List.mem_append_right _ (by simp))
      · have hmt : m ∈ t := by
          cases List.mem_cons.mp hm with
          | inl h1 => exact absurd h1 hm0
          | inr h1 => exact h1
        exact ih _ _ m hmt hmiss

/-- Reports survive the remaining files. -/
theorem files_fold_reports_mono (methods : List String) :
    ∀ (fl : List (String × ResultsMap)) (d : MDict) (rs : List String)
      (x : String), x ∈ rs → x ∈ (files_fold methods fl d rs).2 := by
  intro fl
  induction fl with
  | nil => intro d rs x hx; exact hx
  | cons f t ih =>
    intro d rs x hx
    rw [files_fold]
    exact ih _ _ x (file_fold_reports_mono f.1 f.2 methods d rs x hx)

/-- C4's reporting half, over the whole file loop. -/
theorem files_fold_reports_missing (methods : List String) :
    ∀ (fl : List (String × ResultsMap)) (d : MDict) (rs : List String)
      (m pth : String) (R : ResultsMap),
    (pth, R) ∈ fl → m ∈ methods → alookup R m = none →
    ("Missing " ++ m ++ " in " ++ pth) ∈ (files_fold methods fl d rs).2 := by
  intro fl
  induction fl with
  | nil => intro d rs m pth R hf _ _; exact absurd hf (by simp)
  | cons f t ih =>
    intro d rs m pth R hf hm hmiss
    rw [files_fold]
    cases List.mem_cons.mp hf with
    | inl h1 =>
      subst h1
      exact files_fold_reports_mono methods t _ _ _
        (file_fold_reports_missing pth R methods d rs m hm hmiss)
    | inr h1 => exact ih _ _ m pth R h1 hm hmiss

/-- One file's method loop does not touch methods outside the list. -/
theorem file_fold_dict_not_mem (pth : String) (R : ResultsMap) :
    ∀ (ms : List String) (d : MDict) (rs : List String) (m : String),
    m ∉ ms → (file_fold pth R ms d rs).1 m = d m := by
  intro ms
  induction ms with
  | nil => intro d rs m _; rfl
  | cons m0 t ih =>
    intro d rs m hm
    have hm0 : ¬ m = m0 := fun h => hm (h ▸ List.mem_cons_self m0 t)
    have hmt : m ∉ t := fun h => hm (List.mem_cons_of_mem _ h)
    rw [file_fold]
    split
    next r heq => rw [ih _ _ m hmt]; simp [mdUpdate, hm0]
    next heq => exact ih _ _ m hmt

/-- One file's method loop appends the file's value for a present method. -/
theorem file_fold_dict_mem_some (pth : String) (R : ResultsMap)
    (m : String) (r : ResultTuple) (hr : alookup R m = some r) :
    ∀ (ms : List String) (d : MDict) (rs : List String),
    ms.Nodup → m ∈ ms →
    (file_fold pth R ms d rs).1 m = append_metrics (d m) r := by
  intro ms
  induction ms with
  | nil => intro d rs _ hm; exact absurd hm (by simp)
  | cons m0 t ih =>
    intro d rs hnd hm
    by_cases hm0 : m = m0
    · subst hm0
      have hmt : m ∉ t := (List.nodup_cons.mp hnd).1
      rw [file_fold, hr]
      show (file_fold pth R t (mdUpdate d m (append_metrics (d m) r)) rs).1 m = _
      rw [file_fold_dict_not_mem pth R t _ _ m hmt]
      simp [mdUpdate]
    · have hmt : m ∈ t := by
        cases List.mem_cons.mp hm with
        | inl h1 => exact absurd h1 hm0
        | inr h1 => exact h1
      have hndt : t.Nodup := (List.nodup_cons.mp hnd).2
      rw [file_fold]
      split
      next r0 heq =>
        rw [ih _ _ hndt hmt]
        simp [mdUpdate, hm0]
      next heq => exact ih _ _ hndt hmt

/-- One file's method loop leaves a missing method's lists untouched. -/
theorem file_fold_dict_mem_none (pth : String) (R : ResultsMap)
    (m : String) (hr : alookup R m = none) :
    ∀ (ms : List String) (d : MDict) (rs : List String),
    ms.Nodup → m ∈ ms →
    (file_fold pth R ms d rs).1 m = d m := by
  intro ms
  induction ms with
  | nil => intro d rs _ hm; exact absurd hm (by simp)
  | cons m0 t ih =>
    intro d rs hnd hm
    by_cases hm0 : m = m0
    · subst hm0
      have hmt : m ∉ t := (List.nodup_cons.mp hnd).1
      rw [file_fold, hr]
      show (file_fold pth R t d (rs ++ ["Missing " ++ m ++ " in " ++ pth])).1 m = _
      exact file_fold_dict_not_mem pth R t _ _ m hmt
    · have hmt : m ∈ t := by
        cases List.mem_cons.mp hm with
        | inl h1 => exact absurd h1 hm0
        | inr h1 => exact h1
      have hndt : t.Nodup := (List.nodup_cons.mp hnd).2
      rw [file_fold]
      split
      next r0 heq =>
        rw [ih _ _ hndt hmt]
        simp [mdUpdate, hm0]
      next heq => exact ih _ _ hndt hmt

/-- A method's sample lists after the whole file loop are the starting
lists extended by exactly one sample per used file containing the method —
files lacking it contribute nothing (they are skipped, not zeroed). -/
theorem files_fold_dict_char (methods : List String) (m : String)
    (hnd : methods.Nodup) (hm : m ∈ methods) :
    ∀ (fl : List (String × ResultsMap)) (d : MDict) (rs : List String),
    (files_fold methods fl d rs).1 m = mm_append (d m) (method_samples fl m) := by
  intro fl
  induction fl with
  | nil =>
    intro d rs
    show d m = _
    simp [method_samples, mm_append]
  | cons f t ih =>
    intro d rs
    rw [files_fold]
    show (files_fold methods t (file_fold f.1 f.2 methods d rs).1
        (file_fold f.1 f.2 methods d rs).2).1 m = _
    rw [ih _ _]
    cases hr : alookup f.2 m with
    | some r =>
      rw [file_fold_dict_mem_some f.1 f.2 m r hr methods d rs hnd hm]
      simp [mm_append, append_metrics, method_samples, List.filterMap_cons,
        hr, List.append_assoc]
    | none =>
      rw [file_fold_dict_mem_none f.1 f.2 m hr methods d rs hnd hm]
      simp [mm_append, method_samples, List.filterMap_cons, hr]

/-- Starting from the empty lists, the collected samples are exactly
`method_samples`. -/
theorem collected_samples_eq (methods : List String) (m : String)
    (hnd : methods.Nodup) (hm : m ∈ methods)
    (fl : List (String × ResultsMap)) :
    (files_fold methods fl init_metrics_dict []).1 m = method_samples fl m := by
  rw [files_fold_dict_char methods m hnd hm fl init_metrics_dict []]
  simp [init_metrics_dict, empty_metrics, mm_append]

/-- Row lookup in the aggregate built from a method list. -/
theorem alookup_rows_self (methods : List String) (f : String → MethodAgg)
    (m : String) (hm : m ∈ methods) :
    alookup (methods.map (fun m2 => (m2, f m2))) m = some (f m) := by
  induction methods with
  | nil => exact absurd hm (by simp)
  | cons m0 t ih =>
    rw [List.map_cons, alookup]
    by_cases h : m0 = m
    · rw [if_pos h, h]
    · rw [if_neg h]
      exact ih (by
        cases List.mem_cons.mp hm with
        | inl h1 => exact absurd h1.symm h
        | inr h1 => exact h1)

/-- The aggregator's row for a requested method. -/
theorem average_rows_lookup (files : List (String × ResultsMap))
    (methods : List String) (max_seeds : Option ℕ) (m : String)
    (hm : m ∈ methods) :
    alookup (average_results_across_seeds files methods max_seeds).rows m
      = some (method_agg (sort_files files).length
          ((files_fold methods (used_files files max_seeds)
              init_metrics_dict []).1 m)) := by
  show alookup (methods.map _) m = _
  exact alookup_rows_self methods _ m hm

/-- C4: a requested method missing from a processed results file is
reported per file, naming the method and the file, and that file
contributes nothing to the method's aggregate: the collected samples are
exactly one per file containing the method (so strictly fewer samples than
files — the missing file is skipped, not recorded as zero), and the
method's aggregate row is computed from those samples alone. -/
theorem missing_method_reported_and_skipped
    (files : List (String × ResultsMap)) (methods : List String)
    (max_seeds : Option ℕ) (m pth : String) (R : ResultsMap)
    (hnd : methods.Nodup) (hm : m ∈ methods)
    (hf : (pth, R) ∈ used_files files max_seeds)
    (hmiss : alookup R m = none) :
    ("Missing " ++ m ++ " in " ++ pth)
        ∈ (average_results_across_seeds files methods max_seeds).reports ∧
    (files_fold methods (used_files files max_seeds) init_metrics_dict []).1 m
        = method_samples (used_files files max_seeds) m ∧
    alookup (average_results_across_seeds files methods max_seeds).rows m
        = some (method_agg (sort_files files).length
            (method_samples (used_files files max_seeds) m)) ∧
    (method_samples (used_files files max_seeds) m).class_cov_gap.length
        < (used_files files max_seeds).length := by
  refine ⟨?_, collected_samples_eq methods m hnd hm _, ?_, ?_⟩
  · show _ ∈ (files_fold methods (used_files files max_seeds)
      init_metrics_dict []).2
    exact files_fold_reports_missing methods _ _ _ m pth R hf hm hmiss
  · rw [average_rows_lookup files methods max_seeds m hm]
    rw [collected_samples_eq methods m hnd hm]
  · exact length_filterMap_lt _ _ (pth, R) hf (by simp [hmiss])

/-- C10: with more results files than `max_seeds`, only the first
`max_seeds` files in sorted order contribute samples, while the reported
number of seeds and every standard-error divisor use the total number of
files discovered — `se² = np_var(samples)/num_discovered`, not
`/num_used`. -/
theorem se_divisor_is_total_file_count
    (files : List (String × ResultsMap)) (methods : List String) (k : ℕ)
    (m : String) (hnd : methods.Nodup) (hm : m ∈ methods)
    (hk : k < (sort_files files).length) :
    (average_results_across_seeds files methods (some k)).num_seeds
        = files.length ∧
    used_files files (some k) = (sort_files files).take k ∧
    alookup (average_results_across_seeds files methods (some k)).rows m
        = some (method_agg files.length
            (method_samples ((sort_files files).take k) m)) ∧
    (method_agg files.length
        (method_samples ((sort_files files).take k) m)).class_cov_gap.se_sq
      = np_var (method_samples ((sort_files files).take k) m).class_cov_gap
          / (files.length : ℚ) := by
  have hlen : (sort_files files).length = files.length := by
    rw [sort_files, sortBy_length]
  have hused : used_files files (some k) = (sort_files files).take k := by
    show (if (sort_files files).length > k then (sort_files files).take k
      else sort_files files) = _
    rw [if_pos hk]
  refine ⟨hlen, hused, ?_, rfl⟩
  rw [average_rows_lookup files methods (some k) m hm]
  rw [collected_samples_eq methods m hnd hm]
  rw [hused, hlen]

/-- Witness for C1 at a concrete run: the demo prior file exists, the seed
iteration succeeds, and the preservation conclusions hold. -/
theorem run_prior_results_preserved_witness :
    (fsLookup demo_state_with_file.fs (save_to_path demo_args "softmax" 0)
        = some demo_prior) ∧
    ((seed_step demo_args demo_scores demo_labels "softmax" 0
        demo_state_with_file).2 = none) ∧
    (∃ M1,
      fsLookup (seed_step demo_args demo_scores demo_labels "softmax" 0
          demo_state_with_file).1.fs (save_to_path demo_args "softmax" 0)
        = some M1 ∧
      WriteEvent.pkl (save_to_path demo_args "softmax" 0) M1
          ∈ (seed_step demo_args demo_scores demo_labels "softmax" 0
              demo_state_with_file).1.trace ∧
      (∀ m v, alookup demo_prior m = some v → ∃ w, alookup M1 m = some w) ∧
      (∀ m v, alookup demo_prior m = some v → m ∉ demo_args.methods →
        alookup M1 m = some (if demo_args.save_preds then v else stripTuple v)) ∧
      (demo_prior ≠ [] → M1 ≠ [])) :=
  ⟨by rfl, by decide,
   run_prior_results_preserved demo_args demo_scores demo_labels "softmax" 0
     demo_state_with_file demo_prior (by rfl) (by decide)⟩

/-- Witness for C2 at concrete unknown names. -/
theorem unknown_names_raise_witness :
    (("bogus" : String) ∉ (["softmax", "APS", "RAPS"] : List String)) ∧
    (("stratified" : String) ∉ (["random", "balanced"] : List String)) ∧
    (("quantile" : String) ∉ (["standard", "classwise",
      "classwise_default_standard", "cluster_proportional",
      "cluster_doubledip", "cluster_random", "regularized_classwise",
      "exact_coverage_standard", "exact_coverage_classwise",
      "exact_coverage_cluster"] : List String)) ∧
    (score_branch demo_softmax "bogus" 0 = .error "Undefined score function" ∧
     split_data "stratified" demo_softmax demo_labels 1 0
        = .error "Invalid calibration_sampling option" ∧
     dispatch_method demo_cd (1/10) default_cluster_args "quantile" 0
        = .error "Invalid method selected") :=
  ⟨by decide, by decide, by decide,
   unknown_names_raise "bogus" "stratified" "quantile" demo_softmax
     demo_labels 1 0 0 0 demo_cd (1/10) default_cluster_args
     (by decide) (by decide) (by decide)⟩

/-- Witness for the amended C3 at a concrete unknown dataset. -/
theorem config_errors_fail_fast_witness :
    (demo_args_bad_dataset.dataset
        ∉ (["imagenet", "cifar-100", "places365", "inaturalist"] : List String)) ∧
    (run_one_experiment demo_args_bad_dataset demo_data [] 5
      = ({ fs := [], trace := [], g := rngOf 0 }, some "AssertionError") ∧
     (∀ st2 e, seed_step demo_args_bad_dataset demo_softmax demo_labels
          "softmax" 0 demo_state = (st2, some e) →
        st2.fs = demo_state.fs ∧ st2.trace = demo_state.trace) ∧
     (∀ e, score_branch demo_softmax "softmax" demo_state.g = .error e →
        score_step demo_args_bad_dataset demo_softmax demo_labels "softmax"
          demo_state = (demo_state, some e))) :=
  ⟨by decide,
   config_errors_fail_fast demo_args_bad_dataset demo_data [] 5 demo_softmax
     demo_labels "softmax" 0 demo_state (by decide)⟩

/-- Witness for C4 at a concrete pair of files, the second lacking the
requested method. -/
theorem missing_method_reported_and_skipped_witness :
    ((["standard"] : List String).Nodup) ∧
    (("standard" : String) ∈ (["standard"] : List String)) ∧
    ((("b.pkl", ([] : ResultsMap)) ∈ used_files demo_files none)) ∧
    (alookup ([] : ResultsMap) "standard" = none) ∧
    (("Missing " ++ "standard" ++ " in " ++ "b.pkl")
        ∈ (average_results_across_seeds demo_files ["standard"] none).reports ∧
     (files_fold ["standard"] (used_files demo_files none)
          init_metrics_dict []).1 "standard"
        = method_samples (used_files demo_files none) "standard" ∧
     alookup (average_results_across_seeds demo_files ["standard"] none).rows
          "standard"
        = some (method_agg (sort_files demo_files).length
            (method_samples (used_files demo_files none) "standard")) ∧
     (method_samples (used_files demo_files none) "standard").class_cov_gap.length
        < (used_files demo_files none).length) :=
  ⟨by decide, by decide, by decide, by decide,
   missing_method_reported_and_skipped demo_files ["standard"] none
     "standard" "b.pkl" [] (by decide) (by decide) (by decide) (by decide)⟩

/-- Witness for C7 at a concrete split and method list. -/
theorem save_preds_false_keeps_calibrator_components_witness :
    (("standard" : String) ∈ (["standard"] : List String)) ∧
    (exOk (process_seed none demo_cd (1/10) default_cluster_args
        ["standard"] false 0) = true) ∧
    (∃ g0 rt g1,
      dispatch_method demo_cd (1/10) default_cluster_args "standard" g0
        = .ok (rt, g1) ∧
      alookup (exGet ([], 0) (process_seed none demo_cd (1/10)
          default_cluster_args ["standard"] false 0)).1 "standard"
        = some { qhat := rt.qhat, preds := none, metrics := rt.metrics,
                 set_size := rt.set_size }) :=
  ⟨by decide, by decide,
   save_preds_false_keeps_calibrator_components none demo_cd (1/10)
     default_cluster_args ["standard"] 0 "standard" (by decide) (by decide)⟩

/-- Witness for C9 at a concrete re-run over a prior file that retained
prediction sets. -/
theorem rerun_nulls_all_pred_sets_witness :
    (fsLookup demo_state_with_file.fs (save_to_path demo_args "softmax" 0)
        = some demo_prior) ∧
    (demo_args.save_preds = false) ∧
    ((seed_step demo_args demo_scores demo_labels "softmax" 0
        demo_state_with_file).2 = none) ∧
    (∃ M1,
      fsLookup (seed_step demo_args demo_scores demo_labels "softmax" 0
          demo_state_with_file).1.fs (save_to_path demo_args "softmax" 0)
        = some M1 ∧
      (∀ m w, alookup M1 m = some w → w.preds = none) ∧
      (∀ m v, alookup demo_prior m = some v → ∃ w, alookup M1 m = some w)) :=
  ⟨by rfl, by rfl, by decide,
   rerun_nulls_all_pred_sets demo_args demo_scores demo_labels "softmax" 0
     demo_state_with_file demo_prior (by rfl) (by rfl) (by decide)⟩

/-- Witness for C10 at three concrete files truncated to two. -/
theorem se_divisor_is_total_file_count_witness :
    ((["standard"] : List String).Nodup) ∧
    (("standard" : String) ∈ (["standard"] : List String)) ∧
    (2 < (sort_files demo_files3).length) ∧
    ((average_results_across_seeds demo_files3 ["standard"] (some 2)).num_seeds
        = demo_files3.length ∧
     used_files demo_files3 (some 2) = (sort_files demo_files3).take 2 ∧
     alookup (average_results_across_seeds demo_files3 ["standard"]
          (some 2)).rows "standard"
        = some (method_agg demo_files3.length
            (method_samples ((sort_files demo_files3).take 2) "standard")) ∧
     (method_agg demo_files3.length
          (method_samples ((sort_files demo_files3).take 2) "standard")).class_cov_gap.se_sq
        = np_var (method_samples ((sort_files demo_files3).take 2)
              "standard").class_cov_gap / (demo_files3.length : ℚ)) :=
  ⟨by decide, by decide, by decide,
   se_divisor_is_total_file_count demo_files3 ["standard"] 2 "standard"
     (by decide) (by decide) (by decide)⟩
